import Mathlib

/-!
Verification of the LLDP-over-SNMP collector against its design notes.

The repository contains three Go program variants:
* `Main1` — the variant whose value decoder owns the printability heuristic
  (`isMostlyPrintable`, `parseSNMPVariable` with hex fallback) and whose
  remote-table walk uses completion-driven grouping (`hasAllKeys`).
* a second variant that emits a row as soon as the capabilities column is
  seen (not needed by any theorem below).
* `Part0` — the variant that groups walked cells into nested maps keyed by
  components of the object identifier.

The embedding models Go data as follows: a `[]byte` is a `List Nat` of byte
values (0..255); a Go `interface{}` value carried by a PDU is `GoValue`,
where a non-`[]byte` value is represented by its `fmt.Sprintf "%v"`
rendering; a Go `map[string]string` is an association list with
first-insertion key order and in-place update (`mapSet`), which matches Go
map semantics for lookup, size and key set; a Go panic (failed type
assertion) or `log.Fatalf` is the `none` / `Except.error` case.
-/

set_option maxRecDepth 4000

namespace LLSC

/-- A Go `interface{}` payload carried in a `gosnmp.SnmpPDU`.  A non-byte
value is modelled by its `fmt.Sprintf "%v"` rendering. -/
inductive GoValue where
  | bytes (bs : List Nat)
  | other (text : String)
  deriving DecidableEq

/-- The `gosnmp` wire-type tags the program distinguishes: `OctetString`
versus every other tag (which all take the `default` branch). -/
inductive SnmpType where
  | octetString
  | integer
  | null
  | counter32
  | timeticks
  deriving DecidableEq

/-- One walked cell: `gosnmp.SnmpPDU` restricted to the fields the program
reads (`Name`, `Type`, `Value`; `Value = none` models a nil interface). -/
structure SnmpPDU where
  name : String
  type : SnmpType
  value : Option GoValue
  deriving DecidableEq

/-- Go `string(bs)` for a byte slice: the bytes taken as the text, one
character per byte. -/
def stringOfBytes (bs : List Nat) : String :=
  String.mk (bs.map Char.ofNat)

/-- One lowercase hex digit (`0`-`9`, `a`-`f`). -/
def hexDigit (n : Nat) : Char :=
  Char.ofNat (if n < 10 then 48 + n else 87 + n)

/-- Go `hex.EncodeToString`: two lowercase hex digits per byte, no
separator. -/
def hexEncodeToString (bs : List Nat) : String :=
  String.mk (bs.flatMap (fun b => [hexDigit (b / 16 % 16), hexDigit (b % 16)]))

/-- Go `fmt.Sprintf "%v"` of a non-nil interface value: a byte slice prints
as bracketed decimals, any other value by its carried rendering. -/
def goFormat : GoValue → String
  | GoValue.bytes bs => "[" ++ String.intercalate " " (bs.map Nat.repr) ++ "]"
  | GoValue.other s => s

/-- Go `strings.HasPrefix s pre`. -/
def goStartsWith (s pre : String) : Bool :=
  List.isPrefixOf pre.data s.data

/-- Go map assignment `m[k] = v` on an association list: replace the
binding in place if the key is present, otherwise append it.  Go maps
never hold a key twice, so first-match replacement is exact. -/
def mapSet {α : Type} : List (String × α) → String → α → List (String × α)
  | [], k, v => [(k, v)]
  | p :: t, k, v => if p.1 == k then (k, v) :: t else p :: mapSet t k v

/-- Append a key to a key list unless it is already present (the key-set
effect of one Go map assignment). -/
def insertNew (ks : List String) (k : String) : List String :=
  if k ∈ ks then ks else ks ++ [k]

/-- First-occurrence deduplication of a key list. -/
def dedupKeepFirst (l : List String) : List String :=
  l.foldl insertNew []

/-- A Go `map[string]string` value. -/
abbrev StrMap := List (String × String)

namespace Main1

/-! The first program in `main.go`: OID constants, the value decoder with
the printability heuristic, and completion-driven remote grouping. -/

def lldpLocChassisID : String := ".1.0.8802.1.1.2.1.3.2.0"

def lldpLocSysName : String := ".1.0.8802.1.1.2.1.3.3.0"

def lldpLocPortDesc : String := ".1.0.8802.1.1.2.1.3.7.1.3"

def sysDesc : String := ".1.3.6.1.2.1.1.1.0"

def sysVendor : String := ".1.3.6.1.4.1.8072.3.2.10"

def lldpRemChassisID : String := ".1.0.8802.1.1.2.1.4.1.1.5"

def lldpRemPortID : String := ".1.0.8802.1.1.2.1.4.1.1.7"

def lldpRemPortDesc : String := ".1.0.8802.1.1.2.1.4.1.1.8"

def lldpRemSysName : String := ".1.0.8802.1.1.2.1.4.1.1.9"

def lldpRemSysCap : String := ".1.0.8802.1.1.2.1.4.1.1.12"

def lldpRemMgmtAddress : String := ".1.0.8802.1.1.2.1.4.2.1.4"

def lldpRemTable : String := ".1.0.8802.1.1.2.1.4.1"

/-- The loop body of `isMostlyPrintable`: bytes outside printable ASCII
[32,126] that are neither newline (10) nor carriage return (13). -/
def nonPrintableCount (data : List Nat) : Nat :=
  (data.filter (fun b => ((b < 32 || 126 < b) && b != 10 && b != 13))).length

/-- `isMostlyPrintable` from `main.go`: note the Go integer division
`len(data)/10` in the comparison. -/
def isMostlyPrintable (data : List Nat) : Bool :=
  decide (nonPrintableCount data < data.length / 10)

/-- `parseSNMPVariable` from the first `main.go` program.  `none` models
the Go panic of the `variable.Value.([]byte)` type assertion when an
`OctetString` PDU does not carry a byte slice. -/
def parseSNMPVariable (v : SnmpPDU) : Option String :=
  match v.type with
  | SnmpType.octetString =>
    match v.value with
    | some (GoValue.bytes bs) =>
      if isMostlyPrintable bs then some (stringOfBytes bs)
      else some (hexEncodeToString bs)
    | _ => none
  | _ =>
    match v.value with
    | none => some "<nil>"
    | some gv => some (goFormat gv)

/-- `requiredKeys` from `hasAllKeys` in `main.go`. -/
def requiredKeys : List String :=
  ["Remote Chassis ID",
   "Remote Port ID",
   "Remote Port Description",
   "Remote System Name",
   "Remote System Capabilities",
   "Remote Management Address"]

/-- `hasAllKeys` from `main.go`: every required key has a binding. -/
def hasAllKeys (data : StrMap) : Bool :=
  requiredKeys.all (fun key => (data.lookup key).isSome)

/-- The `switch`/`strings.HasPrefix` dispatch in the walk loop of
`fetchRemoteLLDP`: assign the decoded value to the label of the first
matching remote-column prefix, or leave the accumulator unchanged. -/
def classify (nm value : String) (current : StrMap) : StrMap :=
  if goStartsWith nm lldpRemChassisID then
    mapSet current "Remote Chassis ID" value
  else if goStartsWith nm lldpRemPortID then
    mapSet current "Remote Port ID" value
  else if goStartsWith nm lldpRemPortDesc then
    mapSet current "Remote Port Description" value
  else if goStartsWith nm lldpRemSysName then
    mapSet current "Remote System Name" value
  else if goStartsWith nm lldpRemSysCap then
    mapSet current "Remote System Capabilities" value
  else if goStartsWith nm lldpRemMgmtAddress then
    mapSet current "Remote Management Address" value
  else current

/-- The walk loop of `fetchRemoteLLDP` in the first `main.go` program,
carrying the `results` and `current` mutables; `none` models a decoder
panic aborting the walk. -/
def remoteLoop : List SnmpPDU → List StrMap → StrMap →
    Option (List StrMap × StrMap)
  | [], results, current => some (results, current)
  | v :: rest, results, current =>
    match parseSNMPVariable v with
    | none => none
    | some value =>
      let current2 := classify v.name value current
      if hasAllKeys current2 then remoteLoop rest (results ++ [current2]) []
      else remoteLoop rest results current2

/-- `fetchRemoteLLDP` from the first `main.go` program, as a function of
the walked cell sequence: run the loop, then append the last accumulator
if it is non-empty. -/
def fetchRemoteLLDP (cells : List SnmpPDU) : Option (List StrMap) :=
  match remoteLoop cells [] [] with
  | none => none
  | some (results, current) =>
    some (if 0 < current.length then results ++ [current] else results)

/-- A remote-table cell with a non-byte value, decoding to `value`. -/
def remCell (oid value : String) : SnmpPDU :=
  ⟨oid, SnmpType.integer, some (GoValue.other value)⟩

/-- Walk data: one complete column cycle, then one trailing cell. -/
def c2cells : List SnmpPDU :=
  [remCell ".1.0.8802.1.1.2.1.4.1.1.5.2.1.1" "c-one",
   remCell ".1.0.8802.1.1.2.1.4.1.1.7.2.1.1" "p-one",
   remCell ".1.0.8802.1.1.2.1.4.1.1.8.2.1.1" "d-one",
   remCell ".1.0.8802.1.1.2.1.4.1.1.9.2.1.1" "n-one",
   remCell ".1.0.8802.1.1.2.1.4.1.1.12.2.1.1" "s-one",
   remCell ".1.0.8802.1.1.2.1.4.2.1.4.2.1.1" "m-one",
   remCell ".1.0.8802.1.1.2.1.4.1.1.5.2.1.2" "c-two"]

/-- The completed record the first six cells of `c2cells` produce. -/
def c2rec1 : StrMap :=
  [("Remote Chassis ID", "c-one"),
   ("Remote Port ID", "p-one"),
   ("Remote Port Description", "d-one"),
   ("Remote System Name", "n-one"),
   ("Remote System Capabilities", "s-one"),
   ("Remote Management Address", "m-one")]

/-- The trailing accumulator the last cell of `c2cells` leaves behind. -/
def c2cur : StrMap := [("Remote Chassis ID", "c-two")]

/-- Walk data for the merge counterexample: neighbor A (index suffix
`.2.2.1`) lacks its management-address cell and comes first; neighbor B
(index suffix `.2.2.2`) is complete and comes second. -/
def c3cells : List SnmpPDU :=
  [remCell ".1.0.8802.1.1.2.1.4.1.1.5.2.2.1" "chA",
   remCell ".1.0.8802.1.1.2.1.4.1.1.7.2.2.1" "pA",
   remCell ".1.0.8802.1.1.2.1.4.1.1.8.2.2.1" "dA",
   remCell ".1.0.8802.1.1.2.1.4.1.1.9.2.2.1" "nA",
   remCell ".1.0.8802.1.1.2.1.4.1.1.12.2.2.1" "sA",
   remCell ".1.0.8802.1.1.2.1.4.1.1.5.2.2.2" "chB",
   remCell ".1.0.8802.1.1.2.1.4.1.1.7.2.2.2" "pB",
   remCell ".1.0.8802.1.1.2.1.4.1.1.8.2.2.2" "dB",
   remCell ".1.0.8802.1.1.2.1.4.1.1.9.2.2.2" "nB",
   remCell ".1.0.8802.1.1.2.1.4.1.1.12.2.2.2" "sB",
   remCell ".1.0.8802.1.1.2.1.4.2.1.4.2.2.2" "mB"]

/-- The single record `c3cells` yields: neighbor B's values throughout
(neighbor A's five bindings were overwritten before completion). -/
def c3merged : StrMap :=
  [("Remote Chassis ID", "chB"),
   ("Remote Port ID", "pB"),
   ("Remote Port Description", "dB"),
   ("Remote System Name", "nB"),
   ("Remote System Capabilities", "sB"),
   ("Remote Management Address", "mB")]

/-- A complete neighbor group (index suffix `.3.1.1`). -/
def c3xs : List SnmpPDU :=
  [remCell ".1.0.8802.1.1.2.1.4.1.1.5.3.1.1" "chC",
   remCell ".1.0.8802.1.1.2.1.4.1.1.7.3.1.1" "pC",
   remCell ".1.0.8802.1.1.2.1.4.1.1.8.3.1.1" "dC",
   remCell ".1.0.8802.1.1.2.1.4.1.1.9.3.1.1" "nC",
   remCell ".1.0.8802.1.1.2.1.4.1.1.12.3.1.1" "sC",
   remCell ".1.0.8802.1.1.2.1.4.2.1.4.3.1.1" "mC"]

/-- A trailing neighbor group (index suffix `.3.1.2`) missing its
management-address cell. -/
def c3ys : List SnmpPDU :=
  [remCell ".1.0.8802.1.1.2.1.4.1.1.5.3.1.2" "chD",
   remCell ".1.0.8802.1.1.2.1.4.1.1.7.3.1.2" "pD",
   remCell ".1.0.8802.1.1.2.1.4.1.1.8.3.1.2" "dD",
   remCell ".1.0.8802.1.1.2.1.4.1.1.9.3.1.2" "nD",
   remCell ".1.0.8802.1.1.2.1.4.1.1.12.3.1.2" "sD"]

/-- The record the complete group `c3xs` emits. -/
def c3full : StrMap :=
  [("Remote Chassis ID", "chC"),
   ("Remote Port ID", "pC"),
   ("Remote Port Description", "dC"),
   ("Remote System Name", "nC"),
   ("Remote System Capabilities", "sC"),
   ("Remote Management Address", "mC")]

/-- The partial record the trailing group `c3ys` leaves behind. -/
def c3part : StrMap :=
  [("Remote Chassis ID", "chD"),
   ("Remote Port ID", "pD"),
   ("Remote Port Description", "dD"),
   ("Remote System Name", "nD"),
   ("Remote System Capabilities", "sD")]

/-- Walk data: one complete cycle, then one lone chassis cell. -/
def c10cells : List SnmpPDU :=
  [remCell ".1.0.8802.1.1.2.1.4.1.1.5.4.1.1" "x1",
   remCell ".1.0.8802.1.1.2.1.4.1.1.7.4.1.1" "y1",
   remCell ".1.0.8802.1.1.2.1.4.1.1.8.4.1.1" "z1",
   remCell ".1.0.8802.1.1.2.1.4.1.1.9.4.1.1" "u1",
   remCell ".1.0.8802.1.1.2.1.4.1.1.12.4.1.1" "v1",
   remCell ".1.0.8802.1.1.2.1.4.2.1.4.4.1.1" "w1",
   remCell ".1.0.8802.1.1.2.1.4.1.1.5.4.1.2" "x2"]

/-- The complete first record of `c10cells`. -/
def c10rec1 : StrMap :=
  [("Remote Chassis ID", "x1"),
   ("Remote Port ID", "y1"),
   ("Remote Port Description", "z1"),
   ("Remote System Name", "u1"),
   ("Remote System Capabilities", "v1"),
   ("Remote Management Address", "w1")]

/-- The trailing partial record of `c10cells`. -/
def c10cur : StrMap := [("Remote Chassis ID", "x2")]

end Main1

namespace Part0

/-! The program in `src/unnamed/part_000`: remote cells are grouped into
`map[string]map[string]string` keyed by the third-from-last and
second-from-last dot-separated components of the cell's identifier. -/

/-- `parseSNMPVariable` from `part_000`: no printability heuristic; the
byte slice is taken as text, everything else is `%v`-formatted (a nil
interface prints as `<nil>`).  `none` models the type-assertion panic. -/
def parseSNMPVariable (v : SnmpPDU) : Option String :=
  match v.type with
  | SnmpType.octetString =>
    match v.value with
    | some (GoValue.bytes bs) => some (stringOfBytes bs)
    | _ => none
  | _ =>
    match v.value with
    | none => some "<nil>"
    | some gv => some (goFormat gv)

/-- Go `strings.Split s "."` at the character level: split at every dot,
keeping empty fields (a leading dot yields a leading empty field). -/
def splitOnDot : List Char → List (List Char)
  | [] => [[]]
  | c :: rest =>
    let r := splitOnDot rest
    if c = '.' then [] :: r
    else
      match r with
      | [] => [[c]]
      | g :: gs => (c :: g) :: gs

/-- `parseOID` from `part_000`: `strings.Split(oid, ".")`. -/
def parseOID (oid : String) : List String :=
  (splitOnDot oid.data).map String.mk

/-- A Go `map[string]map[string]string` value. -/
abbrev NestedMap := List (String × StrMap)

/-- A cell passes the `len(oidParts) < 3` guard. -/
def eligible (v : SnmpPDU) : Bool :=
  !decide ((parseOID v.name).length < 3)

/-- `oidParts[len(oidParts)-3]`, the grouping key of `part_000`. -/
def idOf (v : SnmpPDU) : String :=
  (parseOID v.name).getD ((parseOID v.name).length - 3) ""

/-- `oidParts[len(oidParts)-2]`, the per-row column key of `part_000`. -/
def subOf (v : SnmpPDU) : String :=
  (parseOID v.name).getD ((parseOID v.name).length - 2) ""

/-- The grouping keys of the eligible cells, in walk order. -/
def idsOf (cells : List SnmpPDU) : List String :=
  (cells.filter eligible).map idOf

/-- The column keys of the eligible cells carrying grouping key `id`, in
walk order. -/
def subsFor (id : String) (cells : List SnmpPDU) : List String :=
  ((cells.filter eligible).filter (fun v => idOf v == id)).map subOf

/-- The walk loop of `fetchRemoteLLDP` in `part_000`: skip cells with
fewer than three identifier components, otherwise store the decoded value
under `result[id][subOid]`.  `none` models a decoder panic. -/
def remoteFold : List SnmpPDU → NestedMap → Option NestedMap
  | [], acc => some acc
  | v :: rest, acc =>
    if (parseOID v.name).length < 3 then remoteFold rest acc
    else
      match parseSNMPVariable v with
      | none => none
      | some value =>
        remoteFold rest
          (mapSet acc (idOf v)
            (mapSet ((acc.lookup (idOf v)).getD []) (subOf v) value))

/-- `fetchRemoteLLDP` from `part_000` as a function of the walked cells. -/
def fetchRemoteLLDP (cells : List SnmpPDU) : Option NestedMap :=
  remoteFold cells []

/-- The key list of an optional inner map. -/
def innerKeys : Option StrMap → List String
  | none => []
  | some r => r.map Prod.fst

/-- The `Remote` section of `writeBatchCSV` in `part_000` for one target,
with the Go map `range` order over the per-id records made explicit as
the `idOrder` parameter: Go specifies no iteration order for maps, so any
permutation of the key set is an admissible run. -/
def remoteRowsWithOrder (target : String) (m : NestedMap)
    (idOrder : List String) : List (List String) :=
  idOrder.flatMap (fun id =>
    match m.lookup id with
    | none => []
    | some inner => inner.map (fun p => ["Remote", target, id, p.1, p.2]))

/-- Two cells whose identifiers differ only in their last component, so
their grouping keys coincide. -/
def c5a : SnmpPDU :=
  ⟨".1.0.8802.1.1.2.1.4.1.1.5.10.3.1", SnmpType.integer,
    some (GoValue.other "x")⟩

/-- See `c5a`: same components except the trailing row index. -/
def c5b : SnmpPDU :=
  ⟨".1.0.8802.1.1.2.1.4.1.1.5.10.3.2", SnmpType.integer,
    some (GoValue.other "y")⟩

/-- A cell with grouping key `"5"`. -/
def c4a : SnmpPDU := ⟨".9.5.3.1", SnmpType.integer, some (GoValue.other "x")⟩

/-- A cell with grouping key `"6"`. -/
def c4b : SnmpPDU := ⟨".9.6.3.1", SnmpType.integer, some (GoValue.other "y")⟩

/-- The two-entry map the walk `[c4a, c4b]` produces. -/
def c4m : NestedMap := [("5", [("3", "x")]), ("6", [("3", "y")])]

end Part0

namespace Main1

/-! The batch loop of `main` in the first `main.go` program.  The excluded
transport is an oracle: per (target, community) it reports whether
`Connect` succeeds and what `Get`/`WalkAll` return (`none` = transport
error).  `log.Fatalf` (connect failure) and a Go panic both terminate the
process and are modelled as `Except.error`. -/

/-- Transport behaviour of one target: `initializeSNMP`'s connect outcome
and the cell sets `Get` and `WalkAll` deliver (`none` = error return). -/
structure Agent where
  connected : Bool
  getLocal : Option (List SnmpPDU)
  walkRemote : Option (List SnmpPDU)

/-- The result-building loop of `fetchLocalLLDP`: switch on the exact
identifier of each returned variable. -/
def localFold : List SnmpPDU → StrMap → Option StrMap
  | [], result => some result
  | v :: rest, result =>
    match parseSNMPVariable v with
    | none => none
    | some value =>
      localFold rest
        (if v.name == lldpLocChassisID then
          mapSet result "Local Chassis ID" value
        else if v.name == lldpLocSysName then
          mapSet result "Local System Name" value
        else if v.name == lldpLocPortDesc then
          mapSet result "Local Port Description" value
        else if v.name == sysDesc then
          mapSet result "System Description" value
        else if v.name == sysVendor then
          mapSet result "System Vendor" value
        else result)

/-- `fetchLocalLLDP` from the first `main.go` program, as a function of
the variables the `Get` returned. -/
def fetchLocalLLDP (vars : List SnmpPDU) : Option StrMap :=
  localFold vars []

/-- The record loop of `main`: skip records with fewer than two fields;
a connect failure is `log.Fatalf` (process abort); a `Get`/`WalkAll`
error logs and skips the target; successful targets are stored in the
per-target result maps. -/
def processRecords (net : String → String → Agent) :
    List (List String) → List (String × StrMap) →
    List (String × List StrMap) →
    Except String (List (String × StrMap) × List (String × List StrMap))
  | [], accL, accR => Except.ok (accL, accR)
  | record :: rest, accL, accR =>
    if record.length < 2 then processRecords net rest accL accR
    else
      let agent := net (record.getD 0 "") (record.getD 1 "")
      if agent.connected then
        match agent.getLocal with
        | none => processRecords net rest accL accR
        | some vars =>
          match fetchLocalLLDP vars with
          | none => Except.error "panic"
          | some localInfo =>
            match agent.walkRemote with
            | none => processRecords net rest accL accR
            | some cells =>
              match fetchRemoteLLDP cells with
              | none => Except.error "panic"
              | some remote =>
                processRecords net rest
                  (mapSet accL (record.getD 0 "") localInfo)
                  (mapSet accR (record.getD 0 "") remote)
      else Except.error ("Error connecting to target " ++ record.getD 0 "")

/-- A target whose transport misbehaves only in recoverable ways: it
connects, and whatever cell sets it returns decode without panic. -/
def agentOk (a : Agent) : Prop :=
  a.connected = true ∧
  (∀ vars, a.getLocal = some vars → (fetchLocalLLDP vars).isSome = true) ∧
  (∀ cells, a.walkRemote = some cells → (fetchRemoteLLDP cells).isSome = true)

/-- A network where target `"a"` refuses the connection and every other
target answers with empty (but successful) responses. -/
def netC6 : String → String → Agent := fun t _ =>
  if t == "a" then ⟨false, none, none⟩ else ⟨true, some [], some []⟩

/-- A network where every target connects but every `Get` fails. -/
def netSkip : String → String → Agent := fun _ _ => ⟨true, none, none⟩

end Main1

end LLSC

open LLSC LLSC.Main1

/-- C1: the spec says a non-empty payload with strictly fewer than 10%
non-printable bytes decodes as raw text.  The code compares against the
integer division `len/10`, so the fully printable 8-byte payload
`"switch-1"` (0% non-printable) is hex-encoded: `0 < 8/10` is false. -/
theorem parse_hexencodes_fully_printable_short_string :
    nonPrintableCount [115, 119, 105, 116, 99, 104, 45, 49] = 0 ∧
    stringOfBytes [115, 119, 105, 116, 99, 104, 45, 49] = "switch-1" ∧
    parseSNMPVariable
      ⟨lldpLocSysName, SnmpType.octetString,
        some (GoValue.bytes [115, 119, 105, 116, 99, 104, 45, 49])⟩ =
      some "7377697463682d31" := by
  refine ⟨rfl, rfl, rfl⟩

/-- C7 counterexample: on a byte-string cell with an absent value the
decoder does not return the `"<nil>"` sentinel — the Go type assertion
`variable.Value.([]byte)` panics (modelled as `none`). -/
theorem decode_absent_bytestring_not_sentinel_cex :
    parseSNMPVariable ⟨lldpRemChassisID, SnmpType.octetString, none⟩ = none := by
  rfl

/-- C7 amended: for every cell of non-byte-string wire type whose raw
value is absent, the decoder returns the literal sentinel `"<nil>"`. -/
theorem decode_absent_nonbytestring_sentinel :
    ∀ (nm : String) (t : SnmpType), t ≠ SnmpType.octetString →
      parseSNMPVariable ⟨nm, t, none⟩ = some "<nil>" := by
  intro nm t h
  cases t with
  | octetString => exact absurd rfl h
  | integer => rfl
  | null => rfl
  | counter32 => rfl
  | timeticks => rfl

/-- Witness for the amended C7 at the integer wire type. -/
theorem decode_absent_nonbytestring_sentinel_witness :
    parseSNMPVariable ⟨".1.3.6.1.2.1.1.1.0", SnmpType.integer, none⟩ =
      some "<nil>" :=
  decode_absent_nonbytestring_sentinel ".1.3.6.1.2.1.1.1.0" SnmpType.integer
    (by decide)

/-- C8 counterexample: the decoder is not total — an `OctetString` cell
whose carried value is not a byte slice makes the Go type assertion panic
(modelled as `none`), so no string is produced. -/
theorem decode_not_total_cex :
    parseSNMPVariable
      ⟨".1.0.8802.1.1.2.1.4.1.1.5.1", SnmpType.octetString,
        some (GoValue.other "3")⟩ = none := by
  rfl

/-- C8 amended: the decoder produces a string on every cell whose
byte-string cells actually carry a byte payload; all non-byte-string wire
types (any value, including absent) always produce a string. -/
theorem decode_total_on_wellformed :
    ∀ v : SnmpPDU,
      (v.type = SnmpType.octetString →
        ∃ bs, v.value = some (GoValue.bytes bs)) →
      (parseSNMPVariable v).isSome = true := by
  intro v h
  match hv : v with
  | ⟨nm, SnmpType.octetString, val⟩ =>
    obtain ⟨bs, hbs⟩ := h rfl
    simp only at hbs
    subst hbs
    simp only [parseSNMPVariable]
    split <;> rfl
  | ⟨nm, SnmpType.integer, val⟩ => cases val <;> rfl
  | ⟨nm, SnmpType.null, val⟩ => cases val <;> rfl
  | ⟨nm, SnmpType.counter32, val⟩ => cases val <;> rfl
  | ⟨nm, SnmpType.timeticks, val⟩ => cases val <;> rfl

/-- Witness for the amended C8 on a well-formed byte-string cell. -/
theorem decode_total_on_wellformed_witness :
    (parseSNMPVariable
      ⟨".1.0.8802.1.1.2.1.4.1.1.5.1", SnmpType.octetString,
        some (GoValue.bytes [65])⟩).isSome = true :=
  decode_total_on_wellformed
    ⟨".1.0.8802.1.1.2.1.4.1.1.5.1", SnmpType.octetString,
      some (GoValue.bytes [65])⟩
    (fun _ => ⟨[65], rfl⟩)

/-- C9 counterexample: the heuristic does not treat the empty byte string
as mostly printable — `0 < 0/10` is false, so the hex branch is taken. -/
theorem decode_empty_bytes_not_printable_branch_cex :
    isMostlyPrintable [] = false := by
  rfl

/-- C9 amended: the decoder maps a zero-length byte string to the empty
string, but through the hex branch: the heuristic reports the empty
payload as not mostly printable, and the hex encoding of no bytes is
also the empty string. -/
theorem decode_empty_bytes_empty_string :
    parseSNMPVariable
      ⟨".1.0.8802.1.1.2.1.3.3.0", SnmpType.octetString,
        some (GoValue.bytes [])⟩ = some "" ∧
    hexEncodeToString [] = "" ∧
    isMostlyPrintable [] = false := by
  refine ⟨rfl, rfl, rfl⟩

lemma mapSet_lookup_self {α : Type} (m : List (String × α)) (k : String) (v : α) :
    (mapSet m k v).lookup k = some v := by
  induction m with
  | nil => simp [mapSet, List.lookup]
  | cons p t ih =>
    by_cases h : p.1 = k
    · simp [mapSet, h, List.lookup]
    · have hk : (k == p.1) = false := beq_eq_false_iff_ne.mpr (Ne.symm h)
      simp [mapSet, h, List.lookup, hk, ih]

lemma mem_mapSet {α : Type} {a : String × α} {m : List (String × α)}
    {k : String} {v : α} (h : a ∈ mapSet m k v) : a ∈ m ∨ a = (k, v) := by
  induction m with
  | nil => simpa [mapSet] using h
  | cons p t ih =>
    by_cases hp : p.1 = k
    · rcases (by simpa [mapSet, hp] using h : a = (k, v) ∨ a ∈ t) with h1 | h1
      · exact Or.inr h1
      · exact Or.inl (List.mem_cons_of_mem _ h1)
    · rcases (by simpa [mapSet, hp] using h : a = p ∨ a ∈ mapSet t k v) with h1 | h1
      · exact Or.inl (by simp [h1])
      · rcases ih h1 with h2 | h2
        · exact Or.inl (List.mem_cons_of_mem _ h2)
        · exact Or.inr h2

lemma classify_cases (nm value : String) (cur : StrMap) :
    classify nm value cur = cur ∨
      ∃ k, k ∈ requiredKeys ∧ classify nm value cur = mapSet cur k value := by
  unfold classify
  split_ifs
  · exact Or.inr ⟨"Remote Chassis ID", by decide, rfl⟩
  · exact Or.inr ⟨"Remote Port ID", by decide, rfl⟩
  · exact Or.inr ⟨"Remote Port Description", by decide, rfl⟩
  · exact Or.inr ⟨"Remote System Name", by decide, rfl⟩
  · exact Or.inr ⟨"Remote System Capabilities", by decide, rfl⟩
  · exact Or.inr ⟨"Remote Management Address", by decide, rfl⟩
  · exact Or.inl rfl

lemma classify_keys {nm value : String} {cur : StrMap}
    (h : ∀ kv ∈ cur, kv.1 ∈ requiredKeys) :
    ∀ kv ∈ classify nm value cur, kv.1 ∈ requiredKeys := by
  intro kv hkv
  rcases classify_cases nm value cur with hc | ⟨k, hk, hc⟩
  · rw [hc] at hkv; exact h _ hkv
  · rw [hc] at hkv
    rcases mem_mapSet hkv with h1 | h1
    · exact h _ h1
    · rw [h1]; exact hk

lemma remoteLoop_invariant :
    ∀ (cells : List SnmpPDU) (results0 : List StrMap) (current0 : StrMap)
      (R : List StrMap) (cur : StrMap),
      remoteLoop cells results0 current0 = some (R, cur) →
      (∀ r ∈ results0, hasAllKeys r = true) →
      hasAllKeys current0 = false →
      (∀ r ∈ results0, ∀ kv ∈ r, kv.1 ∈ requiredKeys) →
      (∀ kv ∈ current0, kv.1 ∈ requiredKeys) →
      (∀ r ∈ R, hasAllKeys r = true) ∧ hasAllKeys cur = false ∧
        (∀ r ∈ R, ∀ kv ∈ r, kv.1 ∈ requiredKeys) ∧
        (∀ kv ∈ cur, kv.1 ∈ requiredKeys) := by
  intro cells
  induction cells with
  | nil =>
    intro results0 current0 R cur h h1 h2 h3 h4
    simp only [remoteLoop, Option.some.injEq, Prod.mk.injEq] at h
    obtain ⟨hR, hc⟩ := h
    subst hR; subst hc
    exact ⟨h1, h2, h3, h4⟩
  | cons v rest ih =>
    intro results0 current0 R cur h h1 h2 h3 h4
    simp only [remoteLoop] at h
    cases hp : parseSNMPVariable v with
    | none => rw [hp] at h; cases h
    | some value =>
      simp only [hp] at h
      by_cases hc : hasAllKeys (classify v.name value current0) = true
      · rw [if_pos hc] at h
        refine ih _ _ _ _ h ?_ rfl ?_ ?_
        · intro r hr
          rcases List.mem_append.mp hr with h' | h'
          · exact h1 r h'
          · have := List.mem_singleton.mp h'; subst this; exact hc
        · intro r hr
          rcases List.mem_append.mp hr with h' | h'
          · exact h3 r h'
          · have := List.mem_singleton.mp h'; subst this; exact classify_keys h4
        · intro kv hkv; cases hkv
      · rw [if_neg hc] at h
        exact ih _ _ _ _ h h1 (by simpa using hc) h3 (classify_keys h4)

lemma remoteLoop_append :
    ∀ (xs ys : List SnmpPDU) (results : List StrMap) (current : StrMap),
      remoteLoop (xs ++ ys) results current =
        match remoteLoop xs results current with
        | none => none
        | some (r, c) => remoteLoop ys r c := by
  intro xs
  induction xs with
  | nil => intro ys results current; rfl
  | cons v t ih =>
    intro ys results current
    simp only [List.cons_append, remoteLoop]
    cases hp : parseSNMPVariable v with
    | none => rfl
    | some value =>
      by_cases hc : hasAllKeys (classify v.name value current) = true
      · simp [hc, ih]
      · simp [hc, ih]

/-- C2: in completion-driven grouping, a record is emitted during the walk
exactly when the accumulator has just come to hold all six required
labels (every loop-emitted record is complete, and the accumulator is
never left complete), and at end of walk a non-empty (necessarily
incomplete) accumulator is still emitted as a trailing partial record. -/
theorem fetchRemote_completion_emission_policy :
    ∀ (cells : List SnmpPDU) (R : List StrMap) (cur : StrMap),
      remoteLoop cells [] [] = some (R, cur) →
      (∀ r ∈ R, hasAllKeys r = true) ∧ hasAllKeys cur = false ∧
        fetchRemoteLLDP cells =
          some (if 0 < cur.length then R ++ [cur] else R) := by
  intro cells R cur h
  have inv := remoteLoop_invariant cells [] [] R cur h
      (by intro r hr; cases hr) rfl (by intro r hr; cases hr)
      (by intro kv hkv; cases hkv)
  refine ⟨inv.1, inv.2.1, ?_⟩
  simp only [fetchRemoteLLDP, h]

/-- Witness for C2: one complete column cycle plus one trailing cell. -/
theorem fetchRemote_completion_emission_policy_witness :
    hasAllKeys c2cur = false ∧
      fetchRemoteLLDP c2cells =
        some (if 0 < c2cur.length then [c2rec1] ++ [c2cur] else [c2rec1]) :=
  ⟨(fetchRemote_completion_emission_policy c2cells [c2rec1] c2cur (by decide)).2.1,
   (fetchRemote_completion_emission_policy c2cells [c2rec1] c2cur (by decide)).2.2⟩

/-- C3 counterexample: when the neighbor missing an attribute comes first,
its five bindings are overwritten by the next neighbor's cells and merged
into that neighbor's record; the incomplete neighbor gets zero records
(the one emitted record carries neighbor B's chassis ID, not A's). -/
theorem fetchRemote_leading_incomplete_merged_cex :
    fetchRemoteLLDP c3cells = some [c3merged] ∧
      ([c3merged].filter
        (fun r => r.lookup "Remote Chassis ID" == some "chA")).length = 0 := by
  exact ⟨by decide, by decide⟩

/-- C3 amended: if all complete neighbors' contiguous groups close the
accumulator (leaving it empty) and the neighbor with missing attributes
comes last, emitting nothing during its cells, then the walk emits exactly
one record for that neighbor — the trailing partial appended at the end. -/
theorem fetchRemote_trailing_incomplete_single_record :
    ∀ (xs ys : List SnmpPDU) (res1 : List StrMap) (c : StrMap),
      remoteLoop xs [] [] = some (res1, []) →
      remoteLoop ys res1 [] = some (res1, c) →
      0 < c.length →
      fetchRemoteLLDP (xs ++ ys) = some (res1 ++ [c]) := by
  intro xs ys res1 c h1 h2 h3
  have happ := remoteLoop_append xs ys [] []
  rw [h1] at happ
  simp only [fetchRemoteLLDP, happ, h2]
  rw [if_pos h3]

/-- Witness for the amended C3: a complete group then a five-cell group. -/
theorem fetchRemote_trailing_incomplete_single_record_witness :
    fetchRemoteLLDP (c3xs ++ c3ys) = some ([c3full] ++ [c3part]) :=
  fetchRemote_trailing_incomplete_single_record c3xs c3ys [c3full] c3part
    (by decide) (by decide) (by decide)

/-- C10: every key of every emitted record is one of the six known remote
labels, and every record except possibly the last holds all six. -/
theorem fetchRemote_record_keys_invariant :
    ∀ (cells : List SnmpPDU) (recs : List StrMap),
      fetchRemoteLLDP cells = some recs →
      (∀ r ∈ recs, ∀ kv ∈ r, kv.1 ∈ requiredKeys) ∧
      (∀ (i : Nat) (r : StrMap), i + 1 < recs.length →
        recs.get? i = some r → hasAllKeys r = true) := by
  intro cells recs h
  simp only [fetchRemoteLLDP] at h
  cases hl : remoteLoop cells [] [] with
  | none => rw [hl] at h; cases h
  | some rc =>
    obtain ⟨R, cur⟩ := rc
    rw [hl] at h
    simp only [Option.some.injEq] at h
    have inv := remoteLoop_invariant cells [] [] R cur hl
        (by intro r hr; cases hr) rfl (by intro r hr; cases hr)
        (by intro kv hkv; cases hkv)
    by_cases hcur : 0 < cur.length
    · rw [if_pos hcur] at h
      subst h
      constructor
      · intro r hr
        rcases List.mem_append.mp hr with h' | h'
        · exact inv.2.2.1 r h'
        · have := List.mem_singleton.mp h'; subst this; exact inv.2.2.2
      · intro i r hi hget
        have hiR : i < R.length := by
          simp [List.length_append] at hi; omega
        rw [List.get?_append hiR] at hget
        exact inv.1 r (List.get?_mem hget)
    · rw [if_neg hcur] at h
      subst h
      exact ⟨inv.2.2.1, fun i r hi hget => inv.1 r (List.get?_mem hget)⟩

/-- Witness for C10 on a walk with one complete and one partial record. -/
theorem fetchRemote_record_keys_invariant_witness :
    hasAllKeys c10rec1 = true ∧
      ("Remote Chassis ID", "x2").1 ∈ requiredKeys :=
  ⟨(fetchRemote_record_keys_invariant c10cells [c10rec1, c10cur]
      (by decide)).2 0 c10rec1 (by decide) rfl,
   (fetchRemote_record_keys_invariant c10cells [c10rec1, c10cur]
      (by decide)).1 c10cur (by decide) ("Remote Chassis ID", "x2") (by decide)⟩

lemma mapSet_keys {α : Type} (m : List (String × α)) (k : String) (v : α) :
    (mapSet m k v).map Prod.fst = insertNew (m.map Prod.fst) k := by
  induction m with
  | nil => simp [mapSet, insertNew]
  | cons p t ih =>
    by_cases h : p.1 = k
    · simp [mapSet, h, insertNew]
    · have hne : ¬ k = p.1 := fun hh => h hh.symm
      by_cases hm : k ∈ t.map Prod.fst <;>
        simp [mapSet, h, insertNew, ih, hm, hne, List.mem_cons]

lemma mapSet_lookup_ne {α : Type} (m : List (String × α)) {k k' : String}
    (v : α) (h : k' ≠ k) : (mapSet m k v).lookup k' = m.lookup k' := by
  induction m with
  | nil => simp [mapSet, List.lookup, beq_eq_false_iff_ne.mpr h]
  | cons p t ih =>
    by_cases hp : p.1 = k
    · simp [mapSet, hp, List.lookup, beq_eq_false_iff_ne.mpr h]
    · simp [mapSet, hp, List.lookup, ih]

lemma innerKeys_getD (o : Option StrMap) :
    (o.getD []).map Prod.fst = Part0.innerKeys o := by
  cases o <;> rfl

lemma remoteFold_invariant :
    ∀ (cells : List SnmpPDU) (acc m : Part0.NestedMap),
      Part0.remoteFold cells acc = some m →
      m.map Prod.fst =
        (Part0.idsOf cells).foldl insertNew (acc.map Prod.fst) ∧
      (∀ (id : String) (inner : StrMap), m.lookup id = some inner →
        inner.map Prod.fst =
          (Part0.subsFor id cells).foldl insertNew
            (Part0.innerKeys (acc.lookup id))) := by
  intro cells
  induction cells with
  | nil =>
    intro acc m h
    simp only [Part0.remoteFold, Option.some.injEq] at h
    subst h
    constructor
    · simp [Part0.idsOf]
    · intro id inner hlook
      simp [Part0.subsFor, hlook, Part0.innerKeys]
  | cons v rest ih =>
    intro acc m h
    simp only [Part0.remoteFold] at h
    by_cases hlen : (Part0.parseOID v.name).length < 3
    · rw [if_pos hlen] at h
      have hel : Part0.eligible v = false := by
        simp [Part0.eligible, hlen]
      obtain ⟨ihk, ihin⟩ := ih acc m h
      constructor
      · rw [ihk]
        simp [Part0.idsOf, List.filter_cons, hel]
      · intro id inner hlook
        rw [ihin id inner hlook]
        simp [Part0.subsFor, List.filter_cons, hel]
    · rw [if_neg hlen] at h
      have hel : Part0.eligible v = true := by
        simp [Part0.eligible, hlen]
      cases hp : Part0.parseSNMPVariable v with
      | none => rw [hp] at h; cases h
      | some value =>
        simp only [hp] at h
        obtain ⟨ihk, ihin⟩ := ih _ m h
        constructor
        · rw [ihk, mapSet_keys]
          simp [Part0.idsOf, List.filter_cons, hel]
        · intro id inner hlook
          have hthis := ihin id inner hlook
          by_cases hid : Part0.idOf v = id
          · subst hid
            rw [mapSet_lookup_self] at hthis
            rw [hthis]
            simp only [Part0.innerKeys, mapSet_keys, innerKeys_getD]
            simp [Part0.subsFor, List.filter_cons, hel]
          · have hne : id ≠ Part0.idOf v := fun hh => hid hh.symm
            rw [mapSet_lookup_ne _ _ hne] at hthis
            rw [hthis]
            have hbeq : (Part0.idOf v == id) = false :=
              beq_eq_false_iff_ne.mpr hid
            simp [Part0.subsFor, List.filter_cons, hel, hbeq]

/-- C4: evidence that the emission order of `part_000`'s remote records is
not a function of the walk input.  The records live in a Go map keyed by
the grouping component; `writeBatchCSV` emits them by map `range`, whose
order Go leaves unspecified.  Both enumeration orders of the two-record
map are admissible runs (each is a permutation of the key set), and they
emit different row sequences. -/
theorem part0_emission_order_map_range_dependent :
    Part0.fetchRemoteLLDP [Part0.c4a, Part0.c4b] = some Part0.c4m ∧
    List.Perm ["5", "6"] (Part0.c4m.map Prod.fst) ∧
    List.Perm ["6", "5"] (Part0.c4m.map Prod.fst) ∧
    Part0.remoteRowsWithOrder "t" Part0.c4m ["5", "6"] ≠
      Part0.remoteRowsWithOrder "t" Part0.c4m ["6", "5"] := by
  refine ⟨by decide, by decide, by decide, by decide⟩

/-- C5 counterexample: two cells under the remote table whose identifiers
are identical except for the trailing row-index component — hence two
distinct index suffixes relative to the subtree root — collapse to a
single record, because `part_000` groups by the third-from-last component
only (and keys the record by the second-from-last, so the second cell
also overwrites the first's value). -/
theorem part0_distinct_suffixes_collapsed_cex :
    Part0.c5a.name ≠ Part0.c5b.name ∧
    Part0.fetchRemoteLLDP [Part0.c5a, Part0.c5b] =
      some [("10", [("3", "y")])] ∧
    ([("10", [("3", "y")])] : Part0.NestedMap).length = 1 := by
  refine ⟨by decide, by decide, rfl⟩

/-- C5 amended: for every walk, `part_000` emits exactly K records where K
is the number of distinct third-from-last identifier components among the
cells with at least three components (in first-encounter order), and the
record of each such component contains exactly the second-from-last
components of its cells as keys. -/
theorem part0_grouping_by_oid_components :
    ∀ (cells : List SnmpPDU) (m : Part0.NestedMap),
      Part0.fetchRemoteLLDP cells = some m →
      m.map Prod.fst = dedupKeepFirst (Part0.idsOf cells) ∧
      m.length = (dedupKeepFirst (Part0.idsOf cells)).length ∧
      (∀ (id : String) (inner : StrMap), m.lookup id = some inner →
        inner.map Prod.fst = dedupKeepFirst (Part0.subsFor id cells)) := by
  intro cells m h
  obtain ⟨hk, hin⟩ := remoteFold_invariant cells [] m h
  have hk' : m.map Prod.fst = dedupKeepFirst (Part0.idsOf cells) := hk
  refine ⟨hk', ?_, ?_⟩
  · rw [← hk', List.length_map]
  · intro id inner hlook
    exact hin id inner hlook

/-- Witness for the amended C5 on the two-cell walk `[c5a, c5b]`. -/
theorem part0_grouping_by_oid_components_witness :
    ([("10", [("3", "y")])] : Part0.NestedMap).map Prod.fst =
      dedupKeepFirst (Part0.idsOf [Part0.c5a, Part0.c5b]) ∧
    ([("3", "y")] : StrMap).map Prod.fst =
      dedupKeepFirst (Part0.subsFor "10" [Part0.c5a, Part0.c5b]) :=
  ⟨(part0_grouping_by_oid_components [Part0.c5a, Part0.c5b]
      [("10", [("3", "y")])] (by decide)).1,
   (part0_grouping_by_oid_components [Part0.c5a, Part0.c5b]
      [("10", [("3", "y")])] (by decide)).2.2 "10" [("3", "y")] rfl⟩

/-- C6 counterexample: a connect failure on the first target is
`log.Fatalf` — it aborts the whole batch, so the second (healthy) target
is not processed, although it is processed when polled on its own. -/
theorem connect_failure_aborts_batch_cex :
    processRecords netC6 [["a", "c"], ["b", "c"]] [] [] =
      Except.error ("Error connecting to target " ++ "a") ∧
    processRecords netC6 [["b", "c"]] [] [] =
      Except.ok ([("b", [])], [("b", [])]) := by
  exact ⟨rfl, rfl⟩

/-- C6 amended: a `Get` or `WalkAll` transport failure on one target makes
the loop log and skip exactly that target, processing the rest unchanged;
and a batch whose (valid) targets all connect and return decodable data
never aborts.  (A connect failure, by contrast, aborts the batch — see the
counterexample.) -/
theorem transport_failure_skip_policy :
    (∀ (net : String → String → Agent) (record : List String)
        (rest : List (List String)) (accL : List (String × StrMap))
        (accR : List (String × List StrMap)),
      2 ≤ record.length →
      (net (record.getD 0 "") (record.getD 1 "")).connected = true →
      ((net (record.getD 0 "") (record.getD 1 "")).getLocal = none ∨
        (∃ vars localInfo,
          (net (record.getD 0 "") (record.getD 1 "")).getLocal = some vars ∧
          fetchLocalLLDP vars = some localInfo ∧
          (net (record.getD 0 "") (record.getD 1 "")).walkRemote = none)) →
      processRecords net (record :: rest) accL accR =
        processRecords net rest accL accR) ∧
    (∀ (net : String → String → Agent) (records : List (List String))
        (accL : List (String × StrMap))
        (accR : List (String × List StrMap)),
      (∀ record ∈ records, 2 ≤ record.length →
        agentOk (net (record.getD 0 "") (record.getD 1 ""))) →
      (processRecords net records accL accR).isOk = true) := by
  constructor
  · intro net record rest accL accR hlen hconn hfail
    simp only [processRecords]
    rw [if_neg (by omega)]
    rw [if_pos hconn]
    rcases hfail with hnone | ⟨vars, localInfo, hvars, hlocal, hwalk⟩
    · rw [hnone]
    · simp only [hvars, hlocal, hwalk]
  · intro net records
    induction records with
    | nil => intro accL accR h; rfl
    | cons record rest ih =>
      intro accL accR h
      simp only [processRecords]
      by_cases hlen : record.length < 2
      · rw [if_pos hlen]
        exact ih _ _ (fun r hr => h r (List.mem_cons_of_mem _ hr))
      · obtain ⟨hconn, hloc, hrem⟩ :=
          h record (List.mem_cons_self _ _) (by omega)
        rw [if_neg hlen, if_pos hconn]
        cases hgl : (net (record.getD 0 "") (record.getD 1 "")).getLocal with
        | none => exact ih _ _ (fun r hr => h r (List.mem_cons_of_mem _ hr))
        | some vars =>
          have hsome := hloc vars hgl
          cases hfl : fetchLocalLLDP vars with
          | none => rw [hfl] at hsome; cases hsome
          | some localInfo =>
            simp only [hfl]
            cases hwr :
                (net (record.getD 0 "") (record.getD 1 "")).walkRemote with
            | none => exact ih _ _ (fun r hr => h r (List.mem_cons_of_mem _ hr))
            | some cells =>
              have hsome2 := hrem cells hwr
              cases hfr : fetchRemoteLLDP cells with
              | none => rw [hfr] at hsome2; cases hsome2
              | some remote =>
                simp only [hfr]
                exact ih _ _ (fun r hr => h r (List.mem_cons_of_mem _ hr))

/-- Witness for the amended C6: one valid target whose `Get` fails is
skipped, and that batch completes successfully. -/
theorem transport_failure_skip_policy_witness :
    processRecords netSkip [["a", "c"]] [] [] =
      processRecords netSkip [] [] [] ∧
    (processRecords netSkip [["a", "c"]] [] []).isOk = true :=
  ⟨transport_failure_skip_policy.1 netSkip ["a", "c"] [] [] []
      (by decide) rfl (Or.inl rfl),
   transport_failure_skip_policy.2 netSkip [["a", "c"]] [] []
      (fun _ _ _ =>
        ⟨rfl, fun _ hv => Option.noConfusion hv,
         fun _ hc => Option.noConfusion hc⟩)⟩
